import Mathlib

/-!
Shallow embedding of the StreamVio transcoder core
(`core/src/transcoder/transcoder.cpp`, declarations in
`core/include/transcoder/transcoder.h`) and proofs about it.

The C++ `Transcoder` class keeps a single mutable field relevant to the
public operations: `std::map<std::string, int> progressMap`, keyed by
output path.  We embed the map as a function `String → Option Int` and
each member function as a pure function from the old state to its result
and the new state.  The file system check `std::ifstream file(inputPath);
file.good()` is abstracted as an oracle `fs : String → Bool` passed to
the operations that perform it.  Progress callbacks delivered during
`startTranscode` are returned as a `List Int`, and output files written
during the call as a `List String`, so that the synchronous behaviour of
the source is fully visible in the return value.
-/

namespace StreamVio

/-- `struct TranscodeOptions` from `transcoder.h`.  `startTranscode`
receives this struct but never reads it; it is carried for fidelity to
the source signature. -/
structure TranscodeOptions where
  outputFormat : String
  videoBitrate : Int
  audioBitrate : Int
  width : Int
  height : Int
  videoCodec : String
  audioCodec : String
  enableHardwareAcceleration : Bool
deriving DecidableEq, Repr

/-- `struct MediaInfo` from `transcoder.h`.  The C++ `metadata` field is a
`std::map<std::string, std::string>`; we embed it as an association list,
which suffices because the code only ever leaves it default-constructed
(empty). -/
structure MediaInfo where
  path : String
  format : String
  duration : Int
  width : Int
  height : Int
  videoCodec : String
  videoBitrate : Int
  audioCodec : String
  audioBitrate : Int
  audioChannels : Int
  audioSampleRate : Int
  metadata : List (String × String)
deriving DecidableEq, Repr

/-- The mutable state of the C++ `Transcoder` object that the public
operations read and write: the `progressMap` member, keyed by output
path. -/
structure Transcoder where
  progressMap : String → Option Int

/-- A freshly constructed `Transcoder`: `progressMap` is a
default-constructed `std::map`, i.e. empty. -/
def emptyTranscoder : Transcoder := ⟨fun _ => none⟩

/-- `progressMap[outputPath] = v` — a `std::map` subscript assignment:
inserts or overwrites the entry for `outputPath`. -/
def setProgress (st : Transcoder) (outputPath : String) (v : Int) : Transcoder :=
  ⟨fun p => if p = outputPath then some v else st.progressMap p⟩

/-- `Transcoder::getMediaInfo` (transcoder.cpp lines 21-35): fills every
field of a `MediaInfo` with a constant except `path`, which is set to the
argument; `metadata` is never touched and stays empty. -/
def getMediaInfo (inputPath : String) : MediaInfo :=
  ⟨inputPath, "mp4", 60000, 1280, 720, "h264", 1500, "aac", 128, 2, 44100, []⟩

/-- Result of one `Transcoder::startTranscode` call: the returned `bool`,
the `Transcoder` state after the call, the sequence of progress values
passed to `progressCallback` during the call, and the output files
written during the call. -/
structure StartResult where
  ok : Bool
  state : Transcoder
  callbacks : List Int
  written : List String

/-- The `Transcoder` state at transcoder.cpp lines 51-56, while
`startTranscode` is executing the progress callbacks: the assignment
`progressMap[outputPath] = 0` (line 48) has run, the final assignment
`progressMap[outputPath] = 100` (line 58) has not.  A re-entrant call
issued from inside a progress callback observes this state. -/
def startTranscodeCallbackState (outputPath : String) (st : Transcoder) : Transcoder :=
  setProgress st outputPath 0

/-- `Transcoder::startTranscode` (transcoder.cpp lines 37-67).
Checks that the input file opens (`std::ifstream` / `file.good()`,
embedded as the oracle `fs`); on failure returns `false` having touched
nothing.  Otherwise sets `progressMap[outputPath] = 0`, synchronously
invokes the progress callback with 0, 50 and 100, sets
`progressMap[outputPath] = 100`, writes the simulated output file at
`outputPath`, and returns `true`.  The `options` argument is unused by
the source. -/
def startTranscode (fs : String → Bool) (inputPath outputPath : String)
    (options : TranscodeOptions) (st : Transcoder) : StartResult :=
  let _ := options
  if fs inputPath then
    let stMid := startTranscodeCallbackState outputPath st
    let stDone := setProgress stMid outputPath 100
    { ok := true, state := stDone, callbacks := [0, 50, 100], written := [outputPath] }
  else
    { ok := false, state := st, callbacks := [], written := [] }

/-- `Transcoder::cancelTranscode` (transcoder.cpp lines 69-73):
unconditionally sets `progressMap[outputPath] = 100` and returns
`true`. -/
def cancelTranscode (outputPath : String) (st : Transcoder) : Bool × Transcoder :=
  (true, setProgress st outputPath 100)

/-- `Transcoder::getTranscodeProgress` (transcoder.cpp lines 75-81):
returns the stored progress for `outputPath`, or `-1` when the map has no
entry for it. -/
def getTranscodeProgress (outputPath : String) (st : Transcoder) : Int :=
  match st.progressMap outputPath with
  | some v => v
  | none => -1

/-- One public mutating operation on the transcoder, for reasoning about
sequences of calls. -/
inductive Op where
  | start (inputPath outputPath : String) (options : TranscodeOptions)
  | cancel (outputPath : String)

/-- Execute one operation against the state, keeping only the state. -/
def step (fs : String → Bool) (st : Transcoder) : Op → Transcoder
  | Op.start i o opts => (startTranscode fs i o opts st).state
  | Op.cancel o => (cancelTranscode o st).2

/-- Execute a sequence of operations from a starting state. -/
def run (fs : String → Bool) (ops : List Op) (st : Transcoder) : Transcoder :=
  ops.foldl (step fs) st

/-- The value a `getTranscodeProgress o` poll returns after each
operation of the sequence, in order. -/
def pollTrace (fs : String → Bool) (o : String) (st : Transcoder) : List Op → List Int
  | [] => []
  | op :: rest => getTranscodeProgress o (step fs st op) :: pollTrace fs o (step fs st op) rest

/-- Every value the code ever stores in `progressMap` is 0 or 100. -/
def progressInv (st : Transcoder) : Prop :=
  ∀ p v, st.progressMap p = some v → v = 0 ∨ v = 100

/-- Sample options for concrete instantiations. -/
def sampleOptions : TranscodeOptions :=
  ⟨"mp4", 0, 0, 0, 0, "", "", true⟩

-- Basic state lemmas ---------------------------------------------------------

theorem setProgress_lookup_self (st : Transcoder) (o : String) (v : Int) :
    (setProgress st o v).progressMap o = some v := by
  simp [setProgress]

theorem setProgress_lookup_other (st : Transcoder) (o p : String) (v : Int)
    (h : p ≠ o) : (setProgress st o v).progressMap p = st.progressMap p := by
  simp [setProgress, h]

theorem getTranscodeProgress_setProgress_self (st : Transcoder) (o : String) (v : Int) :
    getTranscodeProgress o (setProgress st o v) = v := by
  simp [getTranscodeProgress, setProgress]

theorem startTranscode_ok_iff (fs : String → Bool) (i o : String)
    (opts : TranscodeOptions) (st : Transcoder) :
    (startTranscode fs i o opts st).ok = fs i := by
  by_cases h : fs i <;> simp [startTranscode, h]

theorem startTranscode_state_of_ok (fs : String → Bool) (i o : String)
    (opts : TranscodeOptions) (st : Transcoder) (h : fs i = true) :
    (startTranscode fs i o opts st).state =
      setProgress (startTranscodeCallbackState o st) o 100 := by
  simp [startTranscode, h]

theorem step_preserves_100 (fs : String → Bool) (o : String) (st : Transcoder)
    (op : Op) (h : getTranscodeProgress o st = 100) :
    getTranscodeProgress o (step fs st op) = 100 := by
  cases op with
  | start i p opts =>
    by_cases hi : fs i
    · by_cases hp : o = p
      · subst hp
        simp [step, startTranscode, hi, getTranscodeProgress, setProgress]
      · simp [step, startTranscode, hi, getTranscodeProgress, setProgress,
          startTranscodeCallbackState, hp]
        simpa [getTranscodeProgress] using h
    · simp only [step, startTranscode, Bool.not_eq_true] at hi ⊢
      simpa [hi] using h
  | cancel p =>
    by_cases hp : o = p
    · subst hp
      simp [step, cancelTranscode, getTranscodeProgress, setProgress]
    · simpa [step, cancelTranscode, getTranscodeProgress, setProgress, hp] using h

theorem pollTrace_chain_of_100 (fs : String → Bool) (o : String)
    (st : Transcoder) (ops : List Op) (h : getTranscodeProgress o st = 100) :
    List.Chain' (· ≤ ·) (getTranscodeProgress o st :: pollTrace fs o st ops) := by
  induction ops generalizing st with
  | nil => simp [pollTrace]
  | cons op rest ih =>
    have h2 : getTranscodeProgress o (step fs st op) = 100 :=
      step_preserves_100 fs o st op h
    have tail := ih (step fs st op) h2
    simpa [pollTrace, List.chain'_cons, h, h2] using
      And.intro (le_refl (100 : Int)) tail

-- Reachability invariant for C7 -------------------------------------------

theorem progressInv_empty : progressInv emptyTranscoder := by
  intro p v h
  simp [emptyTranscoder] at h

theorem progressInv_setProgress (st : Transcoder) (o : String) (v : Int)
    (hv : v = 0 ∨ v = 100) (h : progressInv st) :
    progressInv (setProgress st o v) := by
  intro p w hw
  by_cases hp : p = o
  · subst hp
    simp [setProgress] at hw
    exact hw ▸ hv
  · rw [setProgress_lookup_other st o p v hp] at hw
    exact h p w hw

theorem progressInv_step (fs : String → Bool) (st : Transcoder) (op : Op)
    (h : progressInv st) : progressInv (step fs st op) := by
  cases op with
  | start i o opts =>
    by_cases hi : fs i
    · simp only [step, startTranscode, hi, if_pos]
      exact progressInv_setProgress _ o 100 (Or.inr rfl)
        (progressInv_setProgress _ o 0 (Or.inl rfl) h)
    · simp only [step, startTranscode, Bool.not_eq_true] at hi ⊢
      simpa [hi] using h
  | cancel o =>
    exact progressInv_setProgress st o 100 (Or.inr rfl) h

theorem progressInv_run (fs : String → Bool) (ops : List Op) (st : Transcoder)
    (h : progressInv st) : progressInv (run fs ops st) := by
  induction ops generalizing st with
  | nil => simpa [run] using h
  | cons op rest ih =>
    have := ih (step fs st op) (progressInv_step fs st op h)
    simpa [run, List.foldl_cons] using this

-- Claim theorems -----------------------------------------------------------

/-- Claim C9 (confirmed): `getMediaInfo` is total and constant up to the
input path: for every `inputPath` — including paths to files that do not
exist, since the function never inspects the file system — it returns a
descriptor whose `path` field equals `inputPath` and whose remaining
fields are the fixed constants format "mp4", duration 60000 ms, 1280×720,
video "h264" at 1500 kbps, audio "aac" at 128 kbps, 2 channels, 44100 Hz,
and empty metadata; no error is ever reported. -/
theorem getMediaInfo_constant (inputPath : String) :
    getMediaInfo inputPath =
      ⟨inputPath, "mp4", 60000, 1280, 720, "h264", 1500, "aac", 128, 2, 44100, []⟩ :=
  rfl

/-- Claim C10 (confirmed): `cancelTranscode` on an output path with no
associated job does not report failure: it returns `true` and inserts a
progress entry of 100 for that path, so a subsequent
`getTranscodeProgress` call returns 100 rather than the unknown-job
sentinel −1. -/
theorem cancelTranscode_unknown_path (o : String) (st : Transcoder)
    (h : st.progressMap o = none) :
    getTranscodeProgress o st = -1 ∧
    (cancelTranscode o st).1 = true ∧
    getTranscodeProgress o (cancelTranscode o st).2 = 100 := by
  refine ⟨?_, rfl, ?_⟩
  · simp [getTranscodeProgress, h]
  · simp [cancelTranscode, getTranscodeProgress, setProgress]

/-- Concrete instantiation of `cancelTranscode_unknown_path` at the empty
transcoder and the path "b.mp4". -/
theorem cancelTranscode_unknown_path_witness :
    emptyTranscoder.progressMap "b.mp4" = none ∧
    (getTranscodeProgress "b.mp4" emptyTranscoder = -1 ∧
      (cancelTranscode "b.mp4" emptyTranscoder).1 = true ∧
      getTranscodeProgress "b.mp4" (cancelTranscode "b.mp4" emptyTranscoder).2 = 100) :=
  ⟨rfl, cancelTranscode_unknown_path "b.mp4" emptyTranscoder rfl⟩

/-- Claim C4 (confirmed): when `startTranscode` is called with an input
path that cannot be opened, it fails synchronously (returns `false`, the
code's input-not-found signal), creates no job record, delivers no
callbacks, writes no output file, and the stored progress for every path
— including the requested `outputPath` — is exactly what it was before
the call. -/
theorem startTranscode_input_not_found (fs : String → Bool) (i o : String)
    (opts : TranscodeOptions) (st : Transcoder) (h : fs i = false) :
    (startTranscode fs i o opts st).ok = false ∧
    (startTranscode fs i o opts st).state = st ∧
    (startTranscode fs i o opts st).callbacks = [] ∧
    (startTranscode fs i o opts st).written = [] ∧
    ∀ p, getTranscodeProgress p (startTranscode fs i o opts st).state =
      getTranscodeProgress p st := by
  simp [startTranscode, h]

/-- Concrete instantiation of `startTranscode_input_not_found`: the file
system oracle that rejects every path, at input "a.mp4" and output
"b.mp4" from the empty transcoder. -/
theorem startTranscode_input_not_found_witness :
    (fun _ : String => false) "a.mp4" = false ∧
    ((startTranscode (fun _ => false) "a.mp4" "b.mp4" sampleOptions emptyTranscoder).ok = false ∧
     (startTranscode (fun _ => false) "a.mp4" "b.mp4" sampleOptions emptyTranscoder).state =
       emptyTranscoder ∧
     (startTranscode (fun _ => false) "a.mp4" "b.mp4" sampleOptions emptyTranscoder).callbacks = [] ∧
     (startTranscode (fun _ => false) "a.mp4" "b.mp4" sampleOptions emptyTranscoder).written = [] ∧
     ∀ p, getTranscodeProgress p
        (startTranscode (fun _ => false) "a.mp4" "b.mp4" sampleOptions emptyTranscoder).state =
       getTranscodeProgress p emptyTranscoder) :=
  ⟨rfl, startTranscode_input_not_found (fun _ => false) "a.mp4" "b.mp4"
    sampleOptions emptyTranscoder rfl⟩

/-- Claim C5 (confirmed): for every (input, output, options) triple whose
input can be opened, `startTranscode` succeeds (returns `true`) and on
return — the simulated Codec Engine having reported success — polling
progress for the job's output path returns exactly 100, the code's
completed state. -/
theorem startTranscode_completes (fs : String → Bool) (i o : String)
    (opts : TranscodeOptions) (st : Transcoder) (h : fs i = true) :
    (startTranscode fs i o opts st).ok = true ∧
    getTranscodeProgress o (startTranscode fs i o opts st).state = 100 := by
  constructor
  · simp [startTranscode_ok_iff, h]
  · simp [startTranscode, h, getTranscodeProgress, setProgress]

/-- Concrete instantiation of `startTranscode_completes` with a file
system oracle that accepts every path. -/
theorem startTranscode_completes_witness :
    (fun _ : String => true) "a.mp4" = true ∧
    ((startTranscode (fun _ => true) "a.mp4" "b.mp4" sampleOptions emptyTranscoder).ok = true ∧
     getTranscodeProgress "b.mp4"
       (startTranscode (fun _ => true) "a.mp4" "b.mp4" sampleOptions emptyTranscoder).state = 100) :=
  ⟨rfl, startTranscode_completes (fun _ => true) "a.mp4" "b.mp4"
    sampleOptions emptyTranscoder rfl⟩

/-- Claim C7 (confirmed): in every state reachable from a fresh
transcoder by any sequence of `startTranscode`/`cancelTranscode` calls,
`getTranscodeProgress` on a path that was never recorded returns the
sentinel −1, and on a known path returns exactly the recorded value,
which lies in [0,100]. -/
theorem getTranscodeProgress_sentinel_or_range (fs : String → Bool)
    (ops : List Op) (p : String) :
    ((run fs ops emptyTranscoder).progressMap p = none ∧
      getTranscodeProgress p (run fs ops emptyTranscoder) = -1) ∨
    (∃ v, (run fs ops emptyTranscoder).progressMap p = some v ∧
      getTranscodeProgress p (run fs ops emptyTranscoder) = v ∧
      0 ≤ v ∧ v ≤ 100) := by
  have hinv := progressInv_run fs ops emptyTranscoder progressInv_empty
  cases hlook : (run fs ops emptyTranscoder).progressMap p with
  | none =>
    exact Or.inl ⟨rfl, by simp [getTranscodeProgress, hlook]⟩
  | some v =>
    refine Or.inr ⟨v, rfl, by simp [getTranscodeProgress, hlook], ?_, ?_⟩
    · rcases hinv p v hlook with h | h <;> simp [h]
    · rcases hinv p v hlook with h | h <;> simp [h]

/-- Claim C6 (confirmed): for a single job — one successful
`startTranscode` call — the sequence of progress values delivered to its
progress callback is non-decreasing, and the sequence of values returned
by successive `getTranscodeProgress` polls for its output path across any
subsequent sequence of operations is non-decreasing over time. -/
theorem job_progress_monotone (fs : String → Bool) (i o : String)
    (opts : TranscodeOptions) (st : Transcoder) (ops : List Op)
    (h : (startTranscode fs i o opts st).ok = true) :
    List.Chain' (· ≤ ·) (startTranscode fs i o opts st).callbacks ∧
    List.Chain' (· ≤ ·)
      (getTranscodeProgress o (startTranscode fs i o opts st).state ::
        pollTrace fs o (startTranscode fs i o opts st).state ops) := by
  have hfs : fs i = true := by
    have := startTranscode_ok_iff fs i o opts st
    rw [h] at this
    exact this.symm
  constructor
  · simp [startTranscode, hfs]
  · apply pollTrace_chain_of_100
    simp [startTranscode, hfs, getTranscodeProgress, setProgress]

/-- Concrete instantiation of `job_progress_monotone`: submit a job for
"b.mp4", then cancel it and submit another job for a different path; both
observed sequences are non-decreasing. -/
theorem job_progress_monotone_witness :
    (startTranscode (fun _ => true) "a.mp4" "b.mp4" sampleOptions emptyTranscoder).ok = true ∧
    (List.Chain' (· ≤ ·)
      (startTranscode (fun _ => true) "a.mp4" "b.mp4" sampleOptions emptyTranscoder).callbacks ∧
     List.Chain' (· ≤ ·)
      (getTranscodeProgress "b.mp4"
          (startTranscode (fun _ => true) "a.mp4" "b.mp4" sampleOptions emptyTranscoder).state ::
        pollTrace (fun _ => true) "b.mp4"
          (startTranscode (fun _ => true) "a.mp4" "b.mp4" sampleOptions emptyTranscoder).state
          [Op.cancel "b.mp4", Op.start "a.mp4" "c.mp4" sampleOptions])) :=
  ⟨rfl, job_progress_monotone (fun _ => true) "a.mp4" "b.mp4" sampleOptions
    emptyTranscoder [Op.cancel "b.mp4", Op.start "a.mp4" "c.mp4" sampleOptions] rfl⟩

/-- Counterexample to claim C1 as stated: while a first job targeting
"out.mp4" is still in progress (the state in which the code runs its
progress callbacks, recorded progress 0 — not terminal), a second
`startTranscode` targeting the same output path does not fail: it returns
`true` and overwrites the first job's recorded progress with 100.  The
code has no duplicate-output check and no `DuplicateActiveOutput`
error. -/
theorem duplicate_active_output_not_rejected_cex :
    getTranscodeProgress "out.mp4" (startTranscodeCallbackState "out.mp4" emptyTranscoder) = 0 ∧
    (startTranscode (fun _ => true) "in.mp4" "out.mp4" sampleOptions
      (startTranscodeCallbackState "out.mp4" emptyTranscoder)).ok = true ∧
    getTranscodeProgress "out.mp4"
      (startTranscode (fun _ => true) "in.mp4" "out.mp4" sampleOptions
        (startTranscodeCallbackState "out.mp4" emptyTranscoder)).state = 100 :=
  ⟨rfl, rfl, rfl⟩

/-- Claim C1 as amended: `startTranscode` performs no duplicate-output
check — whenever the input can be opened it succeeds (returns `true`)
even if an active job (recorded progress 0, not yet terminal) already
targets the same `outputPath`, and it overwrites that job's recorded
progress, leaving 100 for the path. -/
theorem duplicate_active_output_overwrites (fs : String → Bool) (i o : String)
    (opts : TranscodeOptions) (st : Transcoder) (h : fs i = true)
    (_hactive : getTranscodeProgress o st = 0) :
    (startTranscode fs i o opts st).ok = true ∧
    getTranscodeProgress o (startTranscode fs i o opts st).state = 100 := by
  constructor
  · simp [startTranscode_ok_iff, h]
  · simp [startTranscode, h, getTranscodeProgress, setProgress]

/-- Concrete instantiation of `duplicate_active_output_overwrites` at the
mid-call state of a first job for "out.mp4". -/
theorem duplicate_active_output_overwrites_witness :
    ((fun _ : String => true) "in.mp4" = true ∧
     getTranscodeProgress "out.mp4" (startTranscodeCallbackState "out.mp4" emptyTranscoder) = 0) ∧
    ((startTranscode (fun _ => true) "in.mp4" "out.mp4" sampleOptions
        (startTranscodeCallbackState "out.mp4" emptyTranscoder)).ok = true ∧
     getTranscodeProgress "out.mp4"
       (startTranscode (fun _ => true) "in.mp4" "out.mp4" sampleOptions
         (startTranscodeCallbackState "out.mp4" emptyTranscoder)).state = 100) :=
  ⟨⟨rfl, rfl⟩, duplicate_active_output_overwrites (fun _ => true) "in.mp4" "out.mp4"
    sampleOptions (startTranscodeCallbackState "out.mp4" emptyTranscoder) rfl rfl⟩

/-- Counterexample to claim C2 as stated: cancel a job while it is active
with last recorded progress 0 (the state in which the code runs the
progress callbacks); the cancellation does not leave the recorded
progress at that last value — a subsequent `getTranscodeProgress` poll
returns 100, not 0, because `cancelTranscode` forces the entry to
100. -/
theorem cancel_preserves_progress_cex :
    getTranscodeProgress "out.mp4" (startTranscodeCallbackState "out.mp4" emptyTranscoder) = 0 ∧
    (cancelTranscode "out.mp4" (startTranscodeCallbackState "out.mp4" emptyTranscoder)).1 = true ∧
    getTranscodeProgress "out.mp4"
      (cancelTranscode "out.mp4" (startTranscodeCallbackState "out.mp4" emptyTranscoder)).2 = 100 :=
  ⟨rfl, rfl, rfl⟩

/-- Claim C2 as amended: `cancelTranscode` forces the recorded progress
for the path to 100 regardless of the value last recorded, so a
subsequent progress query returns 100, not the pre-cancellation value;
the code conflates cancellation with completion. -/
theorem cancel_forces_progress_100 (o : String) (st : Transcoder) :
    (cancelTranscode o st).1 = true ∧
    getTranscodeProgress o (cancelTranscode o st).2 = 100 := by
  exact ⟨rfl, by simp [cancelTranscode, getTranscodeProgress, setProgress]⟩

/-- Counterexample to claim C3 as stated: after a job for "out.mp4" has
completed (recorded progress 100 — a terminal state in the code's only
observable sense), `cancelTranscode` on it returns `true`, not the
`false` the claim requires for a job already terminal. -/
theorem cancel_terminal_returns_true_cex :
    getTranscodeProgress "out.mp4"
      (startTranscode (fun _ => true) "in.mp4" "out.mp4" sampleOptions
        emptyTranscoder).state = 100 ∧
    (cancelTranscode "out.mp4"
      (startTranscode (fun _ => true) "in.mp4" "out.mp4" sampleOptions
        emptyTranscoder).state).1 = true :=
  ⟨rfl, rfl⟩

/-- Claim C3 as amended: `cancelTranscode` returns `true` unconditionally
— also on a job that is already terminal — and always records progress
100; a second cancel likewise returns `true`, and it leaves the recorded
state unchanged only because the entry is already 100. -/
theorem cancel_always_true (o : String) (st : Transcoder) :
    (cancelTranscode o st).1 = true ∧
    (cancelTranscode o (cancelTranscode o st).2).1 = true ∧
    (cancelTranscode o (cancelTranscode o st).2).2 = (cancelTranscode o st).2 := by
  refine ⟨rfl, rfl, ?_⟩
  simp only [cancelTranscode, setProgress]
  congr 1
  funext p
  by_cases hp : p = o <;> simp [hp]

/-- Counterexample to claim C8 as stated: `startTranscode` is fully
synchronous — on a successful call, by the time the call returns, all
three progress callback deliveries (0, 50, 100) have already happened,
the output file has already been written, and the job is already complete
(recorded progress 100), all inside the submit call itself. -/
theorem submit_synchronous_cex :
    (startTranscode (fun _ => true) "in.mp4" "out.mp4" sampleOptions
      emptyTranscoder).callbacks = [0, 50, 100] ∧
    (startTranscode (fun _ => true) "in.mp4" "out.mp4" sampleOptions
      emptyTranscoder).written = ["out.mp4"] ∧
    getTranscodeProgress "out.mp4"
      (startTranscode (fun _ => true) "in.mp4" "out.mp4" sampleOptions
        emptyTranscoder).state = 100 :=
  ⟨rfl, rfl, rfl⟩

/-- Claim C8 as amended: `startTranscode` performs the entire simulated
transcode synchronously on the caller's execution context: for every
successful submission, all progress deliveries ([0, 50, 100]), the
output-file write, and completion (recorded progress 100) occur inside
the call, before it returns; nothing is dispatched to a separate
execution context. -/
theorem submit_synchronous (fs : String → Bool) (i o : String)
    (opts : TranscodeOptions) (st : Transcoder) (h : fs i = true) :
    (startTranscode fs i o opts st).callbacks = [0, 50, 100] ∧
    (startTranscode fs i o opts st).written = [o] ∧
    getTranscodeProgress o (startTranscode fs i o opts st).state = 100 := by
  refine ⟨?_, ?_, ?_⟩ <;> simp [startTranscode, h, getTranscodeProgress, setProgress]

/-- Concrete instantiation of `submit_synchronous`. -/
theorem submit_synchronous_witness :
    (fun _ : String => true) "x.mp4" = true ∧
    ((startTranscode (fun _ => true) "x.mp4" "y.mp4" sampleOptions
        emptyTranscoder).callbacks = [0, 50, 100] ∧
     (startTranscode (fun _ => true) "x.mp4" "y.mp4" sampleOptions
        emptyTranscoder).written = ["y.mp4"] ∧
     getTranscodeProgress "y.mp4"
       (startTranscode (fun _ => true) "x.mp4" "y.mp4" sampleOptions
         emptyTranscoder).state = 100) :=
  ⟨rfl, submit_synchronous (fun _ => true) "x.mp4" "y.mp4" sampleOptions
    emptyTranscoder rfl⟩

end StreamVio
